import Mathlib

/-!
Verification of the task persistence store of the queuerManager repository
(`database/dbTask.go`) against its specification.

The store keeps task definitions in one relational table.  We model the
table as a list of rows kept in `sequential_id` order (the order the SQL
engine's `ORDER BY id ASC` produces, and the order in which `SERIAL`
assigns ids), together with the sequence counter backing the `SERIAL`
column.  The three JSONB parameter columns hold a document that either
decodes back to the parameter sequence it was encoded from or is corrupt;
`json.Marshal` on a slice of validator `Validation` values cannot fail, so
encoding is total.  Timestamps are naturals (`NOW()` is passed in as an
explicit clock argument), and the generated `rid` (`gen_random_uuid()`)
is passed in as an explicit argument as well.
-/

namespace QueuerManager

/-- A single parameter-validation specification (`vm.Validation`).  The store
treats it as an opaque value to persist verbatim; we model it as an opaque
token. -/
abbrev Validation := String

/-- The content of one JSONB parameter column: either bytes that decode to a
parameter sequence, or bytes that fail to decode (a corrupt document). -/
inductive Doc where
  | good (params : List Validation)
  | bad (raw : String)
deriving DecidableEq

/-- `json.Marshal` of a `[]vm.Validation` value: total, and decodable again. -/
def encodeDoc (ps : List Validation) : Doc := Doc.good ps

/-- `json.Unmarshal` into `[]vm.Validation`: fails exactly on corrupt bytes. -/
def decodeDoc : Doc → Option (List Validation)
  | Doc.good ps => some ps
  | Doc.bad _ => none

/-- One stored row of the `task` table (column values as stored). -/
structure Row where
  id : Nat
  rid : String
  key : String
  name : String
  description : String
  inputParameters : Doc
  inputParametersKeyed : Doc
  outputParameters : Doc
  createdAt : Nat
  updatedAt : Nat
deriving DecidableEq

/-- The `model.Task` struct handed to and returned by the store. -/
structure Task where
  id : Nat
  rid : String
  key : String
  name : String
  description : String
  inputParameters : List Validation
  inputParametersKeyed : List Validation
  outputParameters : List Validation
  createdAt : Nat
  updatedAt : Nat
deriving DecidableEq

/-- Database state: the stored rows in `id` order plus the `SERIAL`
sequence's last assigned value. -/
structure DB where
  rows : List Row
  lastId : Nat
deriving DecidableEq

/-- Errors surfaced by the store (`helper.NewError(context, cause)` wrapping
an engine error).  The constructor records the error condition that the
wrapped engine error carries (unique-constraint violation for `conflict`,
`sql.ErrNoRows` mapped to the `task not found` context for `notFound`,
anything else as `storage` with the failing operation's context). -/
inductive DBError where
  | conflict (op : String) (detail : String)
  | notFound (detail : String)
  | storage (op : String) (detail : String)
deriving DecidableEq

def DBError.isNotFound : DBError → Bool
  | DBError.notFound _ => true
  | _ => false

def DBError.isConflict : DBError → Bool
  | DBError.conflict _ _ => true
  | _ => false

/-- The text of the error as seen by callers (`err.Error()`): the context
passed to `helper.NewError` followed by the wrapped cause. -/
def errText : DBError → String
  | DBError.conflict op d => op ++ ": " ++ d
  | DBError.notFound d => "task not found: " ++ d
  | DBError.storage op d => op ++ ": " ++ d

/-- Build the returned `model.Task` from a scanned row and its three decoded
parameter sequences. -/
def taskOfRowWith (r : Row) (ip ik op : List Validation) : Task :=
  { id := r.id
    rid := r.rid
    key := r.key
    name := r.name
    description := r.description
    inputParameters := ip
    inputParametersKeyed := ik
    outputParameters := op
    createdAt := r.createdAt
    updatedAt := r.updatedAt }

/-- Scan one row with the strict decode used by the single-row paths
(`InsertTask`/`UpdateTask`/`SelectTask`/`SelectTaskByKey`): the first
failing `json.Unmarshal` aborts with an `unmarshal ...` error. -/
def scanTaskStrict (r : Row) : Except DBError Task :=
  match decodeDoc r.inputParameters with
  | none => Except.error (DBError.storage "unmarshal input_parameters" r.rid)
  | some ip =>
    match decodeDoc r.inputParametersKeyed with
    | none => Except.error (DBError.storage "unmarshal input_parameters_keyed" r.rid)
    | some ik =>
      match decodeDoc r.outputParameters with
      | none => Except.error (DBError.storage "unmarshal output_parameters" r.rid)
      | some op => Except.ok (taskOfRowWith r ip ik op)

/-- One field of the tolerant decode used by the list paths: on an
`json.Unmarshal` failure the field falls back to the empty sequence and a
warning is logged. -/
def decodeField (d : Doc) (warnMsg : String) : List Validation × List String :=
  match decodeDoc d with
  | some ps => (ps, [])
  | none => ([], [warnMsg])

/-- Scan one row with the tolerant decode used by the list paths
(`SelectAllTasks`/`SelectAllTasksBySearch`): each of the three fields
independently falls back to the empty sequence, logging a warning. -/
def mkTaskTolerant (r : Row) : Task × List String :=
  let ipw := decodeField r.inputParameters
    ("Warning: failed to unmarshal input_parameters for task " ++ r.rid)
  let ikw := decodeField r.inputParametersKeyed
    ("Warning: failed to unmarshal input_parameters_keyed for task " ++ r.rid)
  let opw := decodeField r.outputParameters
    ("Warning: failed to unmarshal output_parameters for task " ++ r.rid)
  (taskOfRowWith r ipw.1 ikw.1 opw.1, ipw.2 ++ ikw.2 ++ opw.2)

/-- The `rows.Next()` loop of the two list operations: scan every row
tolerantly, collecting tasks and warnings in order. -/
def scanAllTolerant : List Row → List Task × List String
  | [] => ([], [])
  | r :: rest =>
    let tw := mkTaskTolerant r
    let rw := scanAllTolerant rest
    (tw.1 :: rw.1, tw.2 ++ rw.2)

/-- `ORDER BY id ASC`. -/
def taskById (a b : Row) : Prop := a.id ≤ b.id

/-- `ORDER BY created_at DESC`. -/
def taskByCreatedDesc (a b : Row) : Prop := b.createdAt ≤ a.createdAt

instance : DecidableRel taskById := fun a b => Nat.decLe a.id b.id

instance : DecidableRel taskByCreatedDesc := fun a b => Nat.decLe b.createdAt a.createdAt

instance : IsTotal Row taskById := ⟨fun a b => Nat.le_total a.id b.id⟩

instance : IsTrans Row taskById := ⟨fun _ _ _ h h2 => Nat.le_trans h h2⟩

instance : IsTotal Row taskByCreatedDesc := ⟨fun a b => Nat.le_total b.createdAt a.createdAt⟩

instance : IsTrans Row taskByCreatedDesc := ⟨fun _ _ _ h h2 => Nat.le_trans h2 h⟩

/-- `InsertTask`: marshal the three parameter slices (total), run the
`INSERT ... RETURNING`, and unmarshal the returned documents.  The engine
first coerces the values into `VARCHAR(100)`/`VARCHAR(120)` (length
violations abort before constraint checking), then checks the two unique
constraints; on success the row receives the next `SERIAL` id, the
generated `rid` and `NOW()` timestamps.  A failed constraint check still
consumes a sequence value.  Returns the result together with the state of
the database after the call. -/
def insertTask (db : DB) (genRid : String) (now : Nat) (task : Task) :
    Except DBError Task × DB :=
  let ipDoc := encodeDoc task.inputParameters
  let ikDoc := encodeDoc task.inputParametersKeyed
  let opDoc := encodeDoc task.outputParameters
  if 100 < task.key.length then
    (Except.error (DBError.storage "insert task" "value too long for type character varying(100)"), db)
  else if 120 < task.name.length then
    (Except.error (DBError.storage "insert task" "value too long for type character varying(120)"), db)
  else if db.rows.any (fun r => r.key == task.key) then
    (Except.error (DBError.conflict "insert task" "duplicate key value violates unique constraint task_key_key"),
      { db with lastId := db.lastId + 1 })
  else if db.rows.any (fun r => r.rid == genRid) then
    (Except.error (DBError.conflict "insert task" "duplicate key value violates unique constraint task_rid_key"),
      { db with lastId := db.lastId + 1 })
  else
    let row : Row :=
      { id := db.lastId + 1
        rid := genRid
        key := task.key
        name := task.name
        description := task.description
        inputParameters := ipDoc
        inputParametersKeyed := ikDoc
        outputParameters := opDoc
        createdAt := now
        updatedAt := now }
    let db2 : DB := { rows := db.rows ++ [row], lastId := db.lastId + 1 }
    (scanTaskStrict row, db2)

/-- The `SET` clause of `UpdateTask` applied to one matching row. -/
def updateRow (task : Task) (now : Nat) (r : Row) : Row :=
  { r with
    key := task.key
    name := task.name
    description := task.description
    inputParameters := encodeDoc task.inputParameters
    inputParametersKeyed := encodeDoc task.inputParametersKeyed
    outputParameters := encodeDoc task.outputParameters
    updatedAt := now }

/-- `UpdateTask`: marshal (total), run `UPDATE ... WHERE rid = $7 RETURNING`.
Zero matched rows is `sql.ErrNoRows`, mapped to the `task not found` error;
a matched row is first coerced (length checks), checked against the `key`
unique constraint, then rewritten in place, and the returned row is
unmarshalled. -/
def updateTask (db : DB) (now : Nat) (task : Task) : Except DBError Task × DB :=
  match db.rows.find? (fun r => r.rid == task.rid) with
  | none => (Except.error (DBError.notFound ("no task with rid " ++ task.rid)), db)
  | some old =>
    if 100 < task.key.length then
      (Except.error (DBError.storage "update task" "value too long for type character varying(100)"), db)
    else if 120 < task.name.length then
      (Except.error (DBError.storage "update task" "value too long for type character varying(120)"), db)
    else if db.rows.any (fun r => r.rid != task.rid && r.key == task.key) then
      (Except.error (DBError.conflict "update task" "duplicate key value violates unique constraint task_key_key"), db)
    else
      let db2 : DB :=
        { db with rows := db.rows.map (fun r => if r.rid == task.rid then updateRow task now r else r) }
      (scanTaskStrict (updateRow task now old), db2)

/-- `DeleteTask`: `DELETE FROM task WHERE rid = $1`; zero affected rows is
the `task not found` error. -/
def deleteTask (db : DB) (rid : String) : Except DBError Unit × DB :=
  let remaining := db.rows.filter (fun r => !(r.rid == rid))
  if remaining.length = db.rows.length then
    (Except.error (DBError.notFound ("no task with rid " ++ rid)), db)
  else
    (Except.ok (), { db with rows := remaining })

/-- `SelectTask`: `SELECT ... WHERE rid = $1` via `QueryRow` (first matching
row; `sql.ErrNoRows` mapped to `task not found`), then strict unmarshal. -/
def selectTask (db : DB) (rid : String) : Except DBError Task :=
  match db.rows.find? (fun r => r.rid == rid) with
  | none => Except.error (DBError.notFound ("no task with rid " ++ rid))
  | some r => scanTaskStrict r

/-- `SelectTaskByKey`: as `SelectTask` but addressed by `key`. -/
def selectTaskByKey (db : DB) (key : String) : Except DBError Task :=
  match db.rows.find? (fun r => r.key == key) with
  | none => Except.error (DBError.notFound ("no task with key " ++ key))
  | some r => scanTaskStrict r

/-- `SelectAllTasks`: `WHERE id > $1 ORDER BY id ASC LIMIT $2`, scanned with
the tolerant per-field decode.  Returns the page together with the logged
warnings. -/
def selectAllTasks (db : DB) (lastID entries : Nat) :
    Except DBError (List Task × List String) :=
  Except.ok (scanAllTolerant
    (((db.rows.filter (fun r => lastID < r.id)).insertionSort taskById).take entries))

/-- ASCII lowercasing of a character sequence (`lower()` / `ILIKE` case
folding). -/
def lowerL (s : List Char) : List Char := s.map Char.toLower

/-- SQL `LIKE` pattern matching: `%` matches any sequence, `_` any single
character, backslash escapes the following pattern character; every other
pattern character matches itself. -/
def likeMatch : List Char → List Char → Bool
  | [], s => s.isEmpty
  | c :: p, s =>
    if c = '%' then s.tails.any (fun t => likeMatch p t)
    else if c = '\\' then
      match p, s with
      | pc :: p2, d :: s2 => pc == d && likeMatch p2 s2
      | _, _ => false
    else if c = '_' then
      match s with
      | _ :: s2 => likeMatch p s2
      | [] => false
    else
      match s with
      | d :: s2 => c == d && likeMatch p s2
      | [] => false

/-- `column ILIKE '%' || $1 || '%'`. -/
def ilike (q s : String) : Bool :=
  likeMatch (lowerL ('%' :: q.data ++ ['%'])) (lowerL s.data)

/-- The four-field `OR` of `SelectAllTasksBySearch`'s `WHERE` clause. -/
def rowMatches (search : String) (r : Row) : Bool :=
  ilike search r.rid || ilike search r.key || ilike search r.name ||
    ilike search r.description

/-- The cursor conjunct of `SelectAllTasksBySearch`'s `WHERE` clause:
`0 = $2 OR task.created_at < (SELECT t.created_at FROM task AS t WHERE
t.id = $2)`.  A scalar subquery over a missing id yields NULL, and the
comparison with NULL is not true, so the row is excluded. -/
def searchCursorOk (db : DB) (lastID : Nat) (r : Row) : Bool :=
  lastID == 0 ||
    (match db.rows.find? (fun c => c.id == lastID) with
     | some c => decide (r.createdAt < c.createdAt)
     | none => false)

/-- `SelectAllTasksBySearch`: the search/cursor filter, `ORDER BY
created_at DESC LIMIT $3`, scanned with the tolerant per-field decode. -/
def selectAllTasksBySearch (db : DB) (search : String) (lastID entries : Nat) :
    Except DBError (List Task × List String) :=
  Except.ok (scanAllTolerant
    (((db.rows.filter (fun r => rowMatches search r && searchCursorOk db lastID r)).insertionSort
        taskByCreatedDesc).take entries))

/-- Well-formedness of a reachable database state: rows are listed in
strictly increasing `id` order, ids are positive `SERIAL` values not past
the sequence, and the two unique constraints hold. -/
def WF (db : DB) : Prop :=
  db.rows.Pairwise (fun a b => a.id < b.id) ∧
  (∀ r ∈ db.rows, 0 < r.id ∧ r.id ≤ db.lastId) ∧
  (db.rows.map (fun r => r.rid)).Nodup ∧
  (db.rows.map (fun r => r.key)).Nodup

instance {ε α : Type} [DecidableEq ε] [DecidableEq α] : DecidableEq (Except ε α) := fun x y =>
  match x, y with
  | Except.ok a, Except.ok b =>
    if h : a = b then isTrue (by rw [h]) else isFalse (fun hc => h (by injection hc))
  | Except.ok _, Except.error _ => isFalse (fun hc => Except.noConfusion hc)
  | Except.error _, Except.ok _ => isFalse (fun hc => Except.noConfusion hc)
  | Except.error e, Except.error f =>
    if h : e = f then isTrue (by rw [h]) else isFalse (fun hc => h (by injection hc))

instance (db : DB) : Decidable (WF db) := by
  unfold WF
  infer_instance

/-- Case-insensitive substring, the phrasing the specification uses for the
search operation (this definition follows the specification's words, to be
compared with the `ILIKE` behaviour of the source). -/
def ciSubstring (q s : String) : Prop := lowerL q.data <:+: lowerL s.data

instance (q s : String) : Decidable (ciSubstring q s) :=
  List.decidableInfix (lowerL q.data) (lowerL s.data)

def longName : String := String.mk (List.replicate 121 'a')

def cexTask : Task :=
  { id := 0, rid := "", key := "k", name := longName, description := "",
    inputParameters := [], inputParametersKeyed := [], outputParameters := [],
    createdAt := 0, updatedAt := 0 }

def row0 : Row :=
  { id := 0, rid := "", key := "", name := "", description := "",
    inputParameters := Doc.good [], inputParametersKeyed := Doc.good [],
    outputParameters := Doc.good [], createdAt := 0, updatedAt := 0 }

def task0 : Task := (mkTaskTolerant row0).1

def noWildcard (q : String) : Prop :=
  ∀ c ∈ q.data, c ≠ '%' ∧ c ≠ '_' ∧ c ≠ '\\'

instance (q : String) : Decidable (noWildcard q) := by
  unfold noWildcard
  infer_instance

def cexRow : Row :=
  { id := 1, rid := "r", key := "a", name := "", description := "",
    inputParameters := Doc.good [], inputParametersKeyed := Doc.good [],
    outputParameters := Doc.good [], createdAt := 0, updatedAt := 0 }

/-- A sample task input used to exercise the write operations. -/
def wTask : Task :=
  { id := 0, rid := "", key := "alpha", name := "Alpha", description := "first",
    inputParameters := ["v1"], inputParametersKeyed := ["v2"],
    outputParameters := ["v3"], createdAt := 0, updatedAt := 0 }

/-- A second task input sharing `wTask`'s key. -/
def wTask2 : Task :=
  { id := 0, rid := "", key := "alpha", name := "Beta", description := "second",
    inputParameters := [], inputParametersKeyed := [], outputParameters := [],
    createdAt := 0, updatedAt := 0 }

/-- A task input addressed at an identifier no stored row carries. -/
def wTaskMissing : Task :=
  { id := 0, rid := "zz", key := "gamma", name := "Gamma", description := "",
    inputParameters := [], inputParametersKeyed := [], outputParameters := [],
    createdAt := 0, updatedAt := 0 }

/-- A task input updating the row with identifier `r2`. -/
def wTaskUpd : Task :=
  { id := 0, rid := "r2", key := "k2b", name := "NewName", description := "nd",
    inputParameters := ["u1"], inputParametersKeyed := [],
    outputParameters := ["u2"], createdAt := 0, updatedAt := 0 }

def wRow1 : Row :=
  { id := 1, rid := "r1", key := "k1", name := "N1", description := "",
    inputParameters := Doc.good ["a"], inputParametersKeyed := Doc.good [],
    outputParameters := Doc.good [], createdAt := 10, updatedAt := 10 }

def wRow2 : Row :=
  { id := 2, rid := "r2", key := "k2", name := "N2", description := "d2",
    inputParameters := Doc.good [], inputParametersKeyed := Doc.good [],
    outputParameters := Doc.good [], createdAt := 20, updatedAt := 20 }

def wRow3 : Row :=
  { id := 3, rid := "r3", key := "k3", name := "N3", description := "",
    inputParameters := Doc.good [], inputParametersKeyed := Doc.good [],
    outputParameters := Doc.good [], createdAt := 30, updatedAt := 30 }

def wRow4 : Row :=
  { id := 4, rid := "r4", key := "k4", name := "N4", description := "",
    inputParameters := Doc.good [], inputParametersKeyed := Doc.good [],
    outputParameters := Doc.good [], createdAt := 40, updatedAt := 40 }

/-- A stored row whose `input_parameters` document is corrupt. -/
def wRowBad : Row :=
  { id := 2, rid := "rb", key := "kb", name := "NB", description := "",
    inputParameters := Doc.bad "corrupt", inputParametersKeyed := Doc.good [],
    outputParameters := Doc.good [], createdAt := 20, updatedAt := 20 }

/-- A well-formed four-row store. -/
def wDB : DB := ⟨[wRow1, wRow2, wRow3, wRow4], 4⟩

/-- A well-formed store whose second row has a corrupt parameter column. -/
def wDB8 : DB := ⟨[wRow1, wRowBad], 2⟩

theorem scanAllTolerant_fst (rs : List Row) :
    (scanAllTolerant rs).1 = rs.map (fun r => (mkTaskTolerant r).1) := by
  induction rs with
  | nil => rfl
  | cons r rest ih => simp [scanAllTolerant, ih]

theorem find?_eq_of_mem_nodup {β : Type} [BEq β] [LawfulBEq β] (f : Row → β) {l : List Row}
    (hnd : (l.map f).Nodup) {a : Row} (ha : a ∈ l) (k : β) (hk : f a = k) :
    l.find? (fun r => f r == k) = some a := by
  subst hk
  induction l with
  | nil => cases ha
  | cons b t ih =>
    rw [List.find?_cons]
    rcases List.mem_cons.mp ha with hab | hat
    · subst hab
      simp
    · have hnd2 := hnd
      rw [List.map_cons, List.nodup_cons] at hnd2
      have hne : f b ≠ f a := by
        intro he
        exact hnd2.1 (he ▸ List.mem_map_of_mem f hat)
      have : (f b == f a) = false := by simpa using hne
      rw [this]
      exact ih hnd2.2 hat

theorem scanAllTolerant_snd_mem {rs : List Row} {r : Row} {w : String}
    (hr : r ∈ rs) (hw : w ∈ (mkTaskTolerant r).2) : w ∈ (scanAllTolerant rs).2 := by
  induction rs with
  | nil => cases hr
  | cons a t ih =>
    rcases List.mem_cons.mp hr with h | h
    · subst h
      exact List.mem_append_left _ hw
    · exact List.mem_append_right _ (ih h)

theorem sorted_of_pairwise_id {l : List Row}
    (h : l.Pairwise (fun a b => a.id < b.id)) : List.Sorted taskById l :=
  h.imp (fun hab => Nat.le_of_lt hab)

theorem filter_pos_id_eq {db : DB} (hwf : WF db) :
    db.rows.filter (fun r => 0 < r.id) = db.rows := by
  rw [List.filter_eq_self]
  intro r hr
  simpa using (hwf.2.1 r hr).1

theorem getLastD_map (f : Row → Task) (l : List Row) (d : Row) :
    (l.map f).getLastD (f d) = f (l.getLastD d) := by
  induction l generalizing d with
  | nil => rfl
  | cons a t ih =>
    rw [List.map_cons, List.getLastD_cons, List.getLastD_cons]
    exact ih a

theorem getLastD_mem {l : List Row} (d : Row) (h : l ≠ []) : l.getLastD d ∈ l := by
  induction l generalizing d with
  | nil => exact absurd rfl h
  | cons a t ih =>
    rw [List.getLastD_cons]
    cases t with
    | nil => exact List.mem_singleton_self a
    | cons b t2 => exact List.mem_cons_of_mem a (ih a (by simp))

theorem id_le_getLastD {l : List Row} (d : Row)
    (h : l.Pairwise (fun a b => a.id < b.id)) :
    ∀ x ∈ l, x.id ≤ (l.getLastD d).id := by
  induction l generalizing d with
  | nil => intro x hx; cases hx
  | cons a t ih =>
    intro x hx
    rw [List.getLastD_cons]
    rcases List.mem_cons.mp hx with hxa | hxt
    · subst hxa
      cases t with
      | nil => exact Nat.le_refl _
      | cons b t2 =>
        have hmem : (b :: t2).getLastD x ∈ b :: t2 := getLastD_mem x (by simp)
        exact Nat.le_of_lt ((List.pairwise_cons.mp h).1 _ hmem)
    · exact ih a (List.Pairwise.of_cons h) x hxt

theorem filter_gt_last_take {l : List Row} {N : Nat} (d : Row)
    (h : l.Pairwise (fun a b => a.id < b.id)) (hN : 1 ≤ N) (hlen : N ≤ l.length) :
    l.filter (fun r => ((l.take N).getLastD d).id < r.id) = l.drop N := by
  obtain ⟨k, hk⟩ : ∃ k, k = ((l.take N).getLastD d).id := ⟨_, rfl⟩
  rw [← hk]
  have hcross : ∀ a ∈ l.take N, ∀ b ∈ l.drop N, a.id < b.id := by
    have h2 := h
    conv at h2 => rw [← List.take_append_drop N l]
    exact (List.pairwise_append.mp h2).2.2
  have hne : l.take N ≠ [] := by
    intro hc
    have hlen2 : (l.take N).length = 0 := by rw [hc]; rfl
    rw [List.length_take] at hlen2
    omega
  have h1 : (l.take N).filter (fun r => k < r.id) = [] := by
    rw [List.filter_eq_nil_iff]
    intro x hx
    have := id_le_getLastD d (h.sublist (List.take_sublist _ _)) x hx
    simp only [decide_eq_true_eq]
    omega
  have h2 : (l.drop N).filter (fun r => k < r.id) = l.drop N := by
    rw [List.filter_eq_self]
    intro x hx
    have hmem := getLastD_mem d hne
    have := hcross _ hmem x hx
    subst hk
    simpa using this
  conv_lhs => rw [← List.take_append_drop N l]
  rw [List.filter_append, h1, h2, List.nil_append]

theorem likeMatch_percent {p : List Char} {s : List Char} :
    likeMatch ('%' :: p) s = true ↔ ∃ t, t <:+ s ∧ likeMatch p t = true := by
  rw [likeMatch.eq_def]
  simp only [if_true]
  rw [List.any_eq_true]
  constructor
  · rintro ⟨t, ht, hm⟩
    exact ⟨t, (List.mem_tails _ _).mp ht, hm⟩
  · rintro ⟨t, ht, hm⟩
    exact ⟨t, (List.mem_tails _ _).mpr ht, hm⟩

theorem likeMatch_literal {q : List Char} :
    ∀ {t : List Char}, (∀ c ∈ q, c ≠ '%' ∧ c ≠ '_' ∧ c ≠ '\\') →
      likeMatch (q ++ ['%']) t = true → q <+: t := by
  induction q with
  | nil => intro t _ _; exact List.nil_prefix
  | cons c q ih =>
    intro t hq hm
    have hc := hq c (List.mem_cons_self c q)
    rw [List.cons_append, likeMatch.eq_def] at hm
    simp only [] at hm
    rw [if_neg hc.1, if_neg hc.2.2, if_neg hc.2.1] at hm
    cases t with
    | nil => simp at hm
    | cons d t2 =>
      simp only at hm
      rw [Bool.and_eq_true, beq_iff_eq] at hm
      have hp := ih (fun x hx => hq x (List.mem_cons_of_mem c hx)) hm.2
      rw [List.cons_prefix_cons]
      exact ⟨hm.1, hp⟩

theorem char_toNat_ofNat {n : Nat} (h : n.isValidChar) : (Char.ofNat n).toNat = n := by
  rw [Char.ofNat, dif_pos h]
  rfl

theorem toLower_not_meta {c : Char} (h : c ≠ '%' ∧ c ≠ '_' ∧ c ≠ '\\') :
    c.toLower ≠ '%' ∧ c.toLower ≠ '_' ∧ c.toLower ≠ '\\' := by
  show (let n := c.toNat; if n ≥ 65 ∧ n ≤ 90 then Char.ofNat (n + 32) else c) ≠ '%' ∧
    (let n := c.toNat; if n ≥ 65 ∧ n ≤ 90 then Char.ofNat (n + 32) else c) ≠ '_' ∧
    (let n := c.toNat; if n ≥ 65 ∧ n ≤ 90 then Char.ofNat (n + 32) else c) ≠ '\\'
  by_cases hr : c.toNat ≥ 65 ∧ c.toNat ≤ 90
  · simp only [if_pos hr]
    have hv : (c.toNat + 32).isValidChar := Or.inl (by omega)
    have htn : (Char.ofNat (c.toNat + 32)).toNat = c.toNat + 32 := char_toNat_ofNat hv
    refine ⟨?_, ?_, ?_⟩ <;>
      · intro he
        rw [he] at htn
        simp at htn
        omega
  · simp only [if_neg hr]
    exact h

theorem ids_nodup {l : List Row} (h : l.Pairwise (fun a b => a.id < b.id)) :
    (l.map (fun r => r.id)).Nodup :=
  List.pairwise_map.mpr (h.imp (fun hab => Nat.ne_of_lt hab))

theorem ilike_ciSubstring {q s : String} (hq : noWildcard q) :
    ilike q s = true → ciSubstring q s := by
  intro hm
  rw [ilike] at hm
  have h37 : Char.toLower '%' = '%' := by decide
  have hlower : lowerL ('%' :: q.data ++ ['%']) = '%' :: (lowerL q.data ++ ['%']) := by
    simp only [lowerL, List.map_cons, List.map_append, List.map_nil, h37]
    rfl
  rw [hlower] at hm
  rcases likeMatch_percent.mp hm with ⟨t, hts, htm⟩
  have hq2 : ∀ c ∈ lowerL q.data, c ≠ '%' ∧ c ≠ '_' ∧ c ≠ '\\' := by
    intro c hc
    rcases List.mem_map.mp hc with ⟨c0, hc0, he⟩
    rw [← he]
    exact toLower_not_meta (hq c0 hc0)
  have hpre : lowerL q.data <+: t := likeMatch_literal hq2 htm
  exact List.infix_iff_prefix_suffix.mpr ⟨t, hpre, hts⟩

/-- Claim C1: for every valid task input (key and name within the column
bounds, key not yet stored, fresh non-empty generated identifier), `Insert`
followed by `GetByExternalId` on the returned external identifier returns a
row equal to the inserted row (in particular in `key`, `name`,
`description` and the three parameter sequences); the row returned by
`Insert` has a non-empty `external_id` and a `sequential_id` > 0. -/
theorem C1_insert_then_get_roundtrip (db : DB) (genRid : String) (now : Nat) (task : Task)
    (hkeylen : task.key.length ≤ 100) (hnamelen : task.name.length ≤ 120)
    (hridne : genRid ≠ "")
    (hridfresh : ∀ r ∈ db.rows, r.rid ≠ genRid)
    (hkeyfresh : ∀ r ∈ db.rows, r.key ≠ task.key) :
    ∃ t db2, insertTask db genRid now task = (Except.ok t, db2) ∧
      selectTask db2 t.rid = Except.ok t ∧
      t.key = task.key ∧ t.name = task.name ∧ t.description = task.description ∧
      t.inputParameters = task.inputParameters ∧
      t.inputParametersKeyed = task.inputParametersKeyed ∧
      t.outputParameters = task.outputParameters ∧
      t.rid ≠ "" ∧ 0 < t.id := by
  have hk : db.rows.any (fun r => r.key == task.key) = false := by
    rw [List.any_eq_false]
    intro r hr
    simpa using hkeyfresh r hr
  have hr : db.rows.any (fun r => r.rid == genRid) = false := by
    rw [List.any_eq_false]
    intro r hrm
    simpa using hridfresh r hrm
  have hfind : db.rows.find? (fun r => r.rid == genRid) = none := by
    rw [List.find?_eq_none]
    intro r hrm
    simpa using hridfresh r hrm
  refine ⟨taskOfRowWith
      ⟨db.lastId + 1, genRid, task.key, task.name, task.description,
        encodeDoc task.inputParameters, encodeDoc task.inputParametersKeyed,
        encodeDoc task.outputParameters, now, now⟩
      task.inputParameters task.inputParametersKeyed task.outputParameters,
    ⟨db.rows ++ [⟨db.lastId + 1, genRid, task.key, task.name, task.description,
        encodeDoc task.inputParameters, encodeDoc task.inputParametersKeyed,
        encodeDoc task.outputParameters, now, now⟩], db.lastId + 1⟩,
    ?_, ?_, rfl, rfl, rfl, rfl, rfl, rfl, hridne, Nat.succ_pos _⟩
  · unfold insertTask
    rw [if_neg (by omega), if_neg (by omega), hk, hr]
    simp only [Bool.false_eq_true, if_false]
    rfl
  · unfold selectTask
    simp only [taskOfRowWith, List.find?_append, hfind, Option.none_or, List.find?_cons,
      beq_self_eq_true]
    rfl

theorem C1_witness :
    ∃ t db2, insertTask wDB "r9" 99 wTask = (Except.ok t, db2) ∧
      selectTask db2 t.rid = Except.ok t ∧
      t.key = wTask.key ∧ t.name = wTask.name ∧ t.description = wTask.description ∧
      t.inputParameters = wTask.inputParameters ∧
      t.inputParametersKeyed = wTask.inputParametersKeyed ∧
      t.outputParameters = wTask.outputParameters ∧
      t.rid ≠ "" ∧ 0 < t.id :=
  C1_insert_then_get_roundtrip wDB "r9" 99 wTask (by decide) (by decide) (by decide)
    (by decide) (by decide)

/-- Claim C2 counterexample: the claim quantifies over two `Insert` calls
with the same key and *all other fields arbitrary*, asserting the first
always succeeds; but with a 121-character `name` the first insert is
rejected by the `VARCHAR(120)` column before any row is stored. -/
theorem C2_duplicate_key_cex :
    insertTask ⟨[], 0⟩ "w" 0 cexTask =
      (Except.error (DBError.storage "insert task"
        "value too long for type character varying(120)"), ⟨[], 0⟩) := by
  decide

/-- Claim C2 (amended): for two `Insert` calls with the same key whose
fields fit the column bounds, into a store not already holding that key,
the first succeeds and the second fails with a `conflict` condition
(distinguishable from `not_found` and other kinds) leaving the stored
rows unchanged. -/
theorem C2_duplicate_key_conflict (db : DB) (rid1 rid2 : String) (now1 now2 : Nat)
    (t1 t2 : Task) (hkey : t2.key = t1.key)
    (h1k : t1.key.length ≤ 100) (h1n : t1.name.length ≤ 120)
    (h2n : t2.name.length ≤ 120)
    (hkeyfresh : ∀ r ∈ db.rows, r.key ≠ t1.key)
    (hridfresh : ∀ r ∈ db.rows, r.rid ≠ rid1) :
    ∃ t db1, insertTask db rid1 now1 t1 = (Except.ok t, db1) ∧
      ∃ e db2, insertTask db1 rid2 now2 t2 = (Except.error e, db2) ∧
        e.isConflict = true ∧ e.isNotFound = false ∧ db2.rows = db1.rows := by
  have hk : db.rows.any (fun r => r.key == t1.key) = false := by
    rw [List.any_eq_false]
    intro r hr
    simpa using hkeyfresh r hr
  have hr : db.rows.any (fun r => r.rid == rid1) = false := by
    rw [List.any_eq_false]
    intro r hrm
    simpa using hridfresh r hrm
  refine ⟨taskOfRowWith
      ⟨db.lastId + 1, rid1, t1.key, t1.name, t1.description,
        encodeDoc t1.inputParameters, encodeDoc t1.inputParametersKeyed,
        encodeDoc t1.outputParameters, now1, now1⟩
      t1.inputParameters t1.inputParametersKeyed t1.outputParameters,
    ⟨db.rows ++ [⟨db.lastId + 1, rid1, t1.key, t1.name, t1.description,
        encodeDoc t1.inputParameters, encodeDoc t1.inputParametersKeyed,
        encodeDoc t1.outputParameters, now1, now1⟩], db.lastId + 1⟩, ?_, ?_⟩
  · rw [insertTask]
    rw [if_neg (by omega : ¬ 100 < t1.key.length)]
    rw [if_neg (by omega : ¬ 120 < t1.name.length)]
    rw [hk, hr]
    simp only [Bool.false_eq_true, if_false]
    rfl
  · refine ⟨DBError.conflict "insert task"
      "duplicate key value violates unique constraint task_key_key", ?_⟩
    refine ⟨(⟨db.rows ++ [⟨db.lastId + 1, rid1, t1.key, t1.name, t1.description,
        encodeDoc t1.inputParameters, encodeDoc t1.inputParametersKeyed,
        encodeDoc t1.outputParameters, now1, now1⟩], db.lastId + 1 + 1⟩ : DB), ?_, rfl, rfl, rfl⟩
    rw [insertTask]
    rw [if_neg (by rw [hkey]; omega : ¬ 100 < t2.key.length)]
    rw [if_neg (by omega : ¬ 120 < t2.name.length)]
    have : ((db.rows ++ [(⟨db.lastId + 1, rid1, t1.key, t1.name, t1.description,
        encodeDoc t1.inputParameters, encodeDoc t1.inputParametersKeyed,
        encodeDoc t1.outputParameters, now1, now1⟩ : Row)]).any (fun r => r.key == t2.key)) = true := by
      rw [List.any_eq_true]
      refine ⟨_, List.mem_append_right _ (List.mem_singleton_self _), ?_⟩
      simpa using hkey.symm
    rw [this]
    rfl

theorem C2_witness :
    ∃ t db1, insertTask wDB "r9" 99 wTask = (Except.ok t, db1) ∧
      ∃ e db2, insertTask db1 "r10" 100 wTask2 = (Except.error e, db2) ∧
        e.isConflict = true ∧ e.isNotFound = false ∧ db2.rows = db1.rows :=
  C2_duplicate_key_conflict wDB "r9" "r10" 99 100 wTask wTask2 (by decide) (by decide)
    (by decide) (by decide) (by decide) (by decide)

/-- Claim C3: `Update` addressed by an `external_id` matching no stored row
fails with a `not_found` condition whose text identifies the task as not
found, leaves the store unchanged, and the `not_found` condition holds for
an `Update` error exactly when the addressed row is missing (so callers
can distinguish it from every other failure kind of `Update`). -/
theorem C3_update_missing_not_found (db : DB) (now : Nat) (task : Task) :
    ((∀ r ∈ db.rows, r.rid ≠ task.rid) →
      ∃ e, updateTask db now task = (Except.error e, db) ∧ e.isNotFound = true ∧
        "task not found".data <+: (errText e).data) ∧
    (∀ e, (updateTask db now task).1 = Except.error e →
      (e.isNotFound = true ↔ ∀ r ∈ db.rows, r.rid ≠ task.rid)) := by
  constructor
  · intro habs
    have hfind : db.rows.find? (fun r => r.rid == task.rid) = none := by
      rw [List.find?_eq_none]
      intro r hr
      simpa using habs r hr
    refine ⟨DBError.notFound ("no task with rid " ++ task.rid), ?_, rfl, ?_⟩
    · rw [updateTask, hfind]
    · show "task not found".data <+: ("task not found: " ++ ("no task with rid " ++ task.rid)).data
      refine ⟨": ".data ++ ("no task with rid " ++ task.rid).data, ?_⟩
      rw [← List.append_assoc]
      rw [String.data_append]
      rfl
  · intro e he
    cases hfind : db.rows.find? (fun r => r.rid == task.rid) with
    | none =>
      rw [updateTask, hfind] at he
      simp at he
      subst he
      simp only [DBError.isNotFound, true_iff]
      intro r hr
      have := List.find?_eq_none.mp hfind r hr
      simpa using this
    | some old =>
      have hmem := List.mem_of_find?_eq_some hfind
      have hrid : old.rid = task.rid := by simpa using List.find?_some hfind
      have hfalse : ¬ (∀ r ∈ db.rows, r.rid ≠ task.rid) := fun hall => hall old hmem hrid
      rw [updateTask, hfind] at he
      simp only at he
      split_ifs at he with h1 h2 h3
      · simp at he
        subst he
        simp [DBError.isNotFound, hfalse]
      · simp at he
        subst he
        simp [DBError.isNotFound, hfalse]
      · simp at he
        subst he
        simp [DBError.isNotFound, hfalse]
      · simp [scanTaskStrict, updateRow, encodeDoc, decodeDoc] at he

theorem C3_witness :
    ∃ e, updateTask wDB 55 wTaskMissing = (Except.error e, wDB) ∧ e.isNotFound = true ∧
      "task not found".data <+: (errText e).data :=
  (C3_update_missing_not_found wDB 55 wTaskMissing).1 (by decide)

/-- Claim C4: `Delete` fails with `not_found` exactly when zero rows were
affected and succeeds silently when a row was removed; after a successful
`Delete(id)`, `GetByExternalId(id)` fails with `not_found` and a second
`Delete(id)` also fails with `not_found`. -/
theorem C4_delete_not_found_iff (db : DB) (rid : String) :
    ((∀ r ∈ db.rows, r.rid ≠ rid) →
      ∃ e, deleteTask db rid = (Except.error e, db) ∧ e.isNotFound = true) ∧
    (∀ row ∈ db.rows, row.rid = rid →
      ∃ db2, deleteTask db rid = (Except.ok (), db2) ∧
        (∃ e, selectTask db2 rid = Except.error e ∧ e.isNotFound = true) ∧
        (∃ e, deleteTask db2 rid = (Except.error e, db2) ∧ e.isNotFound = true)) := by
  constructor
  · intro habs
    have hall : db.rows.filter (fun r => !(r.rid == rid)) = db.rows := by
      rw [List.filter_eq_self]
      intro r hr
      simpa using habs r hr
    refine ⟨DBError.notFound ("no task with rid " ++ rid), ?_, rfl⟩
    rw [deleteTask]
    rw [hall, if_pos rfl]
  · intro row hmem hrid
    have hlt : (db.rows.filter (fun r => !(r.rid == rid))).length ≠ db.rows.length := by
      intro he
      have := (List.filter_length_eq_length.mp he) row hmem
      simp [hrid] at this
    refine ⟨⟨db.rows.filter (fun r => !(r.rid == rid)), db.lastId⟩, ?_, ?_, ?_⟩
    · rw [deleteTask, if_neg hlt]
    · refine ⟨DBError.notFound ("no task with rid " ++ rid), ?_, rfl⟩
      rw [selectTask]
      have : (db.rows.filter (fun r => !(r.rid == rid))).find? (fun r => r.rid == rid) = none := by
        rw [List.find?_eq_none]
        intro r hr
        have := (List.mem_filter.mp hr).2
        simpa using this
      rw [this]
    · refine ⟨DBError.notFound ("no task with rid " ++ rid), ?_, rfl⟩
      have hidem : ((db.rows.filter (fun r => !(r.rid == rid))).filter
          (fun r => !(r.rid == rid))).length = (db.rows.filter (fun r => !(r.rid == rid))).length := by
        rw [List.filter_length_eq_length]
        intro r hr
        exact (List.mem_filter.mp hr).2
      simp only [deleteTask]
      rw [if_pos hidem]

theorem C4_witness :
    ∃ db2, deleteTask wDB "r1" = (Except.ok (), db2) ∧
      (∃ e, selectTask db2 "r1" = Except.error e ∧ e.isNotFound = true) ∧
      (∃ e, deleteTask db2 "r1" = (Except.error e, db2) ∧ e.isNotFound = true) :=
  (C4_delete_not_found_iff wDB "r1").2 wRow1 (by decide) (by decide)

/-- Claim C5: `ListPage(afterSequentialId, pageSize)` returns exactly the
stored rows with `sequential_id` strictly greater than `afterSequentialId`
in ascending `sequential_id` order (the stored order), truncated to at
most `pageSize` rows; `afterSequentialId = 0` yields the rows from the
beginning; when no row qualifies it returns an empty sequence without
error. -/
theorem C5_list_page_keyset (db : DB) (lastID entries : Nat) (hwf : WF db) :
    selectAllTasks db lastID entries =
      Except.ok (scanAllTolerant ((db.rows.filter (fun r => lastID < r.id)).take entries)) ∧
    (scanAllTolerant ((db.rows.filter (fun r => lastID < r.id)).take entries)).1.Pairwise
      (fun a b => a.id < b.id) ∧
    (scanAllTolerant ((db.rows.filter (fun r => lastID < r.id)).take entries)).1.length ≤ entries ∧
    (lastID = 0 →
      selectAllTasks db lastID entries = Except.ok (scanAllTolerant (db.rows.take entries))) ∧
    (db.rows.filter (fun r => lastID < r.id) = [] →
      selectAllTasks db lastID entries = Except.ok ([], [])) := by
  have hpw : (db.rows.filter (fun r => lastID < r.id)).Pairwise (fun a b => a.id < b.id) :=
    hwf.1.filter _
  have hsort : (db.rows.filter (fun r => lastID < r.id)).insertionSort taskById =
      db.rows.filter (fun r => lastID < r.id) :=
    List.Sorted.insertionSort_eq (sorted_of_pairwise_id hpw)
  have hmain : selectAllTasks db lastID entries =
      Except.ok (scanAllTolerant ((db.rows.filter (fun r => lastID < r.id)).take entries)) := by
    rw [selectAllTasks, hsort]
  refine ⟨hmain, ?_, ?_, ?_, ?_⟩
  · rw [scanAllTolerant_fst, List.pairwise_map]
    exact (hpw.sublist (List.take_sublist _ _)).imp (fun h => h)
  · rw [scanAllTolerant_fst, List.length_map]
    exact List.length_take_le _ _
  · intro h0
    subst h0
    rw [hmain]
    have : db.rows.filter (fun r => 0 < r.id) = db.rows := filter_pos_id_eq hwf
    rw [this]
  · intro hnil
    rw [hmain, hnil, List.take_nil]
    rfl

theorem C5_witness :
    selectAllTasks wDB 1 2 =
      Except.ok (scanAllTolerant ((wDB.rows.filter (fun r => 1 < r.id)).take 2)) :=
  (C5_list_page_keyset wDB 1 2 (by decide)).1

/-- Claim C6: for any N with 1 ≤ N and a stored population of at least 2N
rows, `ListPage(0, N)` and `ListPage(lastSeenId, N)` — where `lastSeenId`
is the `sequential_id` of the last row of the first page — return disjoint
pages whose concatenation, in order, equals `ListPage(0, 2N)`. -/
theorem C6_pages_compose_disjoint (db : DB) (N : Nat) (hwf : WF db) (hN : 1 ≤ N)
    (hlen : 2 * N ≤ db.rows.length) :
    ∃ L1 w1 L2 w2 L w,
      selectAllTasks db 0 N = Except.ok (L1, w1) ∧
      selectAllTasks db (L1.getLastD task0).id N = Except.ok (L2, w2) ∧
      selectAllTasks db 0 (2 * N) = Except.ok (L, w) ∧
      L1 ++ L2 = L ∧
      ∀ t ∈ L1, t ∉ L2 := by
  have hfilter0 : db.rows.filter (fun r => 0 < r.id) = db.rows := filter_pos_id_eq hwf
  have hsortall : db.rows.insertionSort taskById = db.rows :=
    List.Sorted.insertionSort_eq (sorted_of_pairwise_id hwf.1)
  have hpage1 : selectAllTasks db 0 N =
      Except.ok (scanAllTolerant (db.rows.take N)) := by
    rw [selectAllTasks, hfilter0, hsortall]
  have hL1 : (scanAllTolerant (db.rows.take N)).1 =
      (db.rows.take N).map (fun r => (mkTaskTolerant r).1) := scanAllTolerant_fst _
  have hlast : (((scanAllTolerant (db.rows.take N)).1).getLastD task0).id =
      ((db.rows.take N).getLastD row0).id := by
    rw [hL1]
    rw [show task0 = (fun r => (mkTaskTolerant r).1) row0 from rfl]
    rw [getLastD_map]
    rfl
  have hdrop : db.rows.filter
      (fun r => ((db.rows.take N).getLastD row0).id < r.id) = db.rows.drop N :=
    filter_gt_last_take row0 hwf.1 hN (by omega)
  have hpage2 : selectAllTasks db (((scanAllTolerant (db.rows.take N)).1).getLastD task0).id N =
      Except.ok (scanAllTolerant ((db.rows.drop N).take N)) := by
    have hs : (db.rows.drop N).insertionSort taskById = db.rows.drop N :=
      List.Sorted.insertionSort_eq (sorted_of_pairwise_id
        (hdrop ▸ hwf.1.filter (fun r => ((db.rows.take N).getLastD row0).id < r.id)))
    rw [selectAllTasks, hlast, hdrop, hs]
  have hpagefull : selectAllTasks db 0 (2 * N) =
      Except.ok (scanAllTolerant (db.rows.take (2 * N))) := by
    rw [selectAllTasks, hfilter0, hsortall]
  refine ⟨(scanAllTolerant (db.rows.take N)).1, (scanAllTolerant (db.rows.take N)).2,
    (scanAllTolerant ((db.rows.drop N).take N)).1, (scanAllTolerant ((db.rows.drop N).take N)).2,
    (scanAllTolerant (db.rows.take (2 * N))).1, (scanAllTolerant (db.rows.take (2 * N))).2,
    hpage1, hpage2, hpagefull, ?_, ?_⟩
  · rw [scanAllTolerant_fst, scanAllTolerant_fst, scanAllTolerant_fst]
    rw [← List.map_append]
    congr 1
    rw [Nat.two_mul, List.take_add]
  · intro t ht1 ht2
    rw [scanAllTolerant_fst] at ht1 ht2
    rcases List.mem_map.mp ht1 with ⟨r1, hr1, he1⟩
    rcases List.mem_map.mp ht2 with ⟨r2, hr2, he2⟩
    have hid1 : t.id = r1.id := by rw [← he1]; rfl
    have hid2 : t.id = r2.id := by rw [← he2]; rfl
    have hb1 : r1.id ≤ ((db.rows.take N).getLastD row0).id :=
      id_le_getLastD row0 (hwf.1.sublist (List.take_sublist _ _)) r1 hr1
    have hb2 : ((db.rows.take N).getLastD row0).id < r2.id := by
      have hmem : r2 ∈ db.rows.drop N := List.mem_of_mem_take hr2
      rw [← hdrop] at hmem
      have := (List.mem_filter.mp hmem).2
      simpa using this
    omega

theorem C6_witness :
    ∃ L1 w1 L2 w2 L w,
      selectAllTasks wDB 0 2 = Except.ok (L1, w1) ∧
      selectAllTasks wDB (L1.getLastD task0).id 2 = Except.ok (L2, w2) ∧
      selectAllTasks wDB 0 (2 * 2) = Except.ok (L, w) ∧
      L1 ++ L2 = L ∧
      ∀ t ∈ L1, t ∉ L2 :=
  C6_pages_compose_disjoint wDB 2 (by decide) (by decide) (by decide)

/-- Claim C7 counterexample: the claim asserts `SearchPage` returns only
rows where the query is a case-insensitive substring of one of the four
fields, but the query is interpolated into a `LIKE` pattern, so the
wildcard query "_" matches a row none of whose fields contain "_". -/
theorem C7_search_substring_cex :
    selectAllTasksBySearch ⟨[cexRow], 1⟩ "_" 0 10 =
      Except.ok ([(mkTaskTolerant cexRow).1], []) ∧
    ¬ ciSubstring "_" (mkTaskTolerant cexRow).1.rid ∧
    ¬ ciSubstring "_" (mkTaskTolerant cexRow).1.key ∧
    ¬ ciSubstring "_" (mkTaskTolerant cexRow).1.name ∧
    ¬ ciSubstring "_" (mkTaskTolerant cexRow).1.description := by
  refine ⟨by decide, by decide, by decide, by decide, by decide⟩

/-- Claim C7 (amended): for query strings containing no `LIKE` wildcard or
escape characters (`%`, `_`, backslash), `SearchPage` returns only rows
where the query is a case-insensitive substring of the external
identifier's text form, the key, the name or the description, ordered
descending by `created_at`, truncated to at most `pageSize` rows, and —
when `afterSequentialId` is nonzero — restricted to rows whose
`created_at` is strictly earlier than that of the cursor row. -/
theorem C7_search_page_filtered (db : DB) (q : String) (lastID entries : Nat)
    (hwf : WF db) (hq : noWildcard q) :
    ∃ L w, selectAllTasksBySearch db q lastID entries = Except.ok (L, w) ∧
      L.length ≤ entries ∧
      L.Pairwise (fun a b => b.createdAt ≤ a.createdAt) ∧
      (∀ t ∈ L, ciSubstring q t.rid ∨ ciSubstring q t.key ∨
        ciSubstring q t.name ∨ ciSubstring q t.description) ∧
      (lastID ≠ 0 → ∀ t ∈ L, ∀ c ∈ db.rows, c.id = lastID →
        t.createdAt < c.createdAt) := by
  refine ⟨(scanAllTolerant (((db.rows.filter
      (fun r => rowMatches q r && searchCursorOk db lastID r)).insertionSort
      taskByCreatedDesc).take entries)).1,
    (scanAllTolerant (((db.rows.filter
      (fun r => rowMatches q r && searchCursorOk db lastID r)).insertionSort
      taskByCreatedDesc).take entries)).2,
    rfl, ?_, ?_, ?_, ?_⟩
  · rw [scanAllTolerant_fst, List.length_map]
    exact List.length_take_le _ _
  · rw [scanAllTolerant_fst, List.pairwise_map]
    have hs : List.Sorted taskByCreatedDesc ((db.rows.filter
        (fun r => rowMatches q r && searchCursorOk db lastID r)).insertionSort
        taskByCreatedDesc) := List.sorted_insertionSort _ _
    exact (hs.sublist (List.take_sublist _ _)).imp (fun h => h)
  · intro t ht
    rw [scanAllTolerant_fst] at ht
    rcases List.mem_map.mp ht with ⟨r, hr, he⟩
    have hrmem : r ∈ db.rows.filter (fun x => rowMatches q x && searchCursorOk db lastID x) := by
      have := List.mem_of_mem_take hr
      exact (List.perm_insertionSort taskByCreatedDesc _).subset this
    have hcond := (List.mem_filter.mp hrmem).2
    rw [Bool.and_eq_true] at hcond
    have hmat := hcond.1
    rw [rowMatches] at hmat
    subst he
    rcases Bool.or_eq_true_iff.mp hmat with h3 | h4
    · rcases Bool.or_eq_true_iff.mp h3 with h5 | h6
      · rcases Bool.or_eq_true_iff.mp h5 with h7 | h8
        · exact Or.inl (ilike_ciSubstring hq h7)
        · exact Or.inr (Or.inl (ilike_ciSubstring hq h8))
      · exact Or.inr (Or.inr (Or.inl (ilike_ciSubstring hq h6)))
    · exact Or.inr (Or.inr (Or.inr (ilike_ciSubstring hq h4)))
  · intro h0 t ht c hc hcid
    rw [scanAllTolerant_fst] at ht
    rcases List.mem_map.mp ht with ⟨r, hr, he⟩
    have hrmem : r ∈ db.rows.filter (fun x => rowMatches q x && searchCursorOk db lastID x) := by
      have := List.mem_of_mem_take hr
      exact (List.perm_insertionSort taskByCreatedDesc _).subset this
    have hcond := (List.mem_filter.mp hrmem).2
    rw [Bool.and_eq_true] at hcond
    have hcur := hcond.2
    rw [searchCursorOk] at hcur
    have hfind : db.rows.find? (fun x => x.id == lastID) = some c :=
      find?_eq_of_mem_nodup (fun r => r.id) (ids_nodup hwf.1) hc lastID hcid
    rw [hfind] at hcur
    have h0b : (lastID == 0) = false := by simpa using h0
    rw [h0b] at hcur
    simp only [Bool.false_or, decide_eq_true_eq] at hcur
    rw [← he]
    exact hcur

theorem C7_witness :
    ∃ L w, selectAllTasksBySearch wDB "n" 2 5 = Except.ok (L, w) ∧
      L.length ≤ 5 ∧
      L.Pairwise (fun a b => b.createdAt ≤ a.createdAt) ∧
      (∀ t ∈ L, ciSubstring "n" t.rid ∨ ciSubstring "n" t.key ∨
        ciSubstring "n" t.name ∨ ciSubstring "n" t.description) ∧
      (2 ≠ 0 → ∀ t ∈ L, ∀ c ∈ wDB.rows, c.id = 2 →
        t.createdAt < c.createdAt) :=
  C7_search_page_filtered wDB "n" 2 5 (by decide) (by decide)

/-- Claim C8: parameter-sequence decode failures are non-fatal on the list
operations — each of the three fields independently falls back to an empty
sequence with a diagnostic logged and the rest of the page is returned —
whereas the same decode failure on a single-row get (`GetByExternalId`,
`GetByKey`) aborts the operation and surfaces the error to the caller. -/
theorem C8_decode_tolerant_list_strict_get (db : DB) (row : Row) (hwf : WF db) (hmem : row ∈ db.rows)
    (hbad : decodeDoc row.inputParameters = none) :
    (∃ L w, selectAllTasks db 0 db.rows.length = Except.ok (L, w) ∧
      L.length = db.rows.length ∧
      (mkTaskTolerant row).1 ∈ L ∧
      (mkTaskTolerant row).1.inputParameters = [] ∧
      ("Warning: failed to unmarshal input_parameters for task " ++ row.rid) ∈ w) ∧
    (∀ r ∈ db.rows,
      (mkTaskTolerant r).1.inputParameters = (decodeDoc r.inputParameters).getD [] ∧
      (mkTaskTolerant r).1.inputParametersKeyed = (decodeDoc r.inputParametersKeyed).getD [] ∧
      (mkTaskTolerant r).1.outputParameters = (decodeDoc r.outputParameters).getD []) ∧
    (selectTask db row.rid =
        Except.error (DBError.storage "unmarshal input_parameters" row.rid) ∧
      (DBError.storage "unmarshal input_parameters" row.rid).isNotFound = false) ∧
    (∃ e, selectTaskByKey db row.key = Except.error e ∧ e.isNotFound = false) := by
  have hsort : (db.rows.filter (fun r => 0 < r.id)).insertionSort taskById = db.rows := by
    rw [filter_pos_id_eq hwf]
    exact List.Sorted.insertionSort_eq (sorted_of_pairwise_id hwf.1)
  refine ⟨⟨(scanAllTolerant db.rows).1, (scanAllTolerant db.rows).2, ?_, ?_, ?_, ?_, ?_⟩,
    ?_, ⟨?_, rfl⟩, ?_⟩
  · rw [selectAllTasks, hsort, List.take_length]
  · rw [scanAllTolerant_fst, List.length_map]
  · rw [scanAllTolerant_fst]
    exact List.mem_map_of_mem _ hmem
  · simp [mkTaskTolerant, decodeField, hbad, taskOfRowWith]
  · refine scanAllTolerant_snd_mem hmem ?_
    simp [mkTaskTolerant, decodeField, hbad]
  · intro r _
    refine ⟨?_, ?_, ?_⟩
    · cases hd : decodeDoc r.inputParameters <;>
        simp [mkTaskTolerant, decodeField, hd, taskOfRowWith]
    · cases hd : decodeDoc r.inputParametersKeyed <;>
        simp [mkTaskTolerant, decodeField, hd, taskOfRowWith]
    · cases hd : decodeDoc r.outputParameters <;>
        simp [mkTaskTolerant, decodeField, hd, taskOfRowWith]
  · rw [selectTask, find?_eq_of_mem_nodup (fun r => r.rid) hwf.2.2.1 hmem row.rid rfl]
    simp only [scanTaskStrict, hbad]
  · refine ⟨DBError.storage "unmarshal input_parameters" row.rid, ?_, rfl⟩
    rw [selectTaskByKey, find?_eq_of_mem_nodup (fun r => r.key) hwf.2.2.2 hmem row.key rfl]
    simp only [scanTaskStrict, hbad]

theorem C8_witness :
    (∃ L w, selectAllTasks wDB8 0 wDB8.rows.length = Except.ok (L, w) ∧
      L.length = wDB8.rows.length ∧
      (mkTaskTolerant wRowBad).1 ∈ L ∧
      (mkTaskTolerant wRowBad).1.inputParameters = [] ∧
      ("Warning: failed to unmarshal input_parameters for task " ++ wRowBad.rid) ∈ w) ∧
    (∀ r ∈ wDB8.rows,
      (mkTaskTolerant r).1.inputParameters = (decodeDoc r.inputParameters).getD [] ∧
      (mkTaskTolerant r).1.inputParametersKeyed = (decodeDoc r.inputParametersKeyed).getD [] ∧
      (mkTaskTolerant r).1.outputParameters = (decodeDoc r.outputParameters).getD []) ∧
    (selectTask wDB8 wRowBad.rid =
        Except.error (DBError.storage "unmarshal input_parameters" wRowBad.rid) ∧
      (DBError.storage "unmarshal input_parameters" wRowBad.rid).isNotFound = false) ∧
    (∃ e, selectTaskByKey wDB8 wRowBad.key = Except.error e ∧ e.isNotFound = false) :=
  C8_decode_tolerant_list_strict_get wDB8 wRowBad (by decide) (by decide) (by decide)

/-- Claim C9: every successful `Update` leaves the row's `sequential_id`,
`external_id` and `created_at` unchanged, replaces all other fields with
the supplied values, and refreshes `updated_at` to the current time, so
`updated_at` is at least `created_at` on the returned row; rows with other
identifiers are untouched. -/
theorem C9_update_replaces_mutable_fields (db : DB) (now : Nat) (task : Task) (old : Row)
    (hwf : WF db) (hmem : old ∈ db.rows) (hrid : old.rid = task.rid)
    (hkeylen : task.key.length ≤ 100) (hnamelen : task.name.length ≤ 120)
    (hkeyfree : ∀ r ∈ db.rows, r.rid ≠ task.rid → r.key ≠ task.key)
    (hclock : old.createdAt ≤ now) :
    ∃ t db2, updateTask db now task = (Except.ok t, db2) ∧
      t.id = old.id ∧ t.rid = old.rid ∧ t.createdAt = old.createdAt ∧
      t.key = task.key ∧ t.name = task.name ∧ t.description = task.description ∧
      t.inputParameters = task.inputParameters ∧
      t.inputParametersKeyed = task.inputParametersKeyed ∧
      t.outputParameters = task.outputParameters ∧
      t.updatedAt = now ∧ t.createdAt ≤ t.updatedAt ∧
      (∃ row2 ∈ db2.rows, row2.id = old.id ∧ row2.rid = old.rid ∧
        row2.createdAt = old.createdAt ∧ row2.key = task.key ∧
        row2.name = task.name ∧ row2.description = task.description ∧
        row2.updatedAt = now) ∧
      (∀ r ∈ db.rows, r.rid ≠ task.rid → r ∈ db2.rows) := by
  have hfind : db.rows.find? (fun r => r.rid == task.rid) = some old := by
    exact find?_eq_of_mem_nodup (fun r => r.rid) hwf.2.2.1 hmem task.rid hrid
  have hany : db.rows.any (fun r => r.rid != task.rid && r.key == task.key) = false := by
    rw [List.any_eq_false]
    intro r hr
    intro hc
    rw [Bool.and_eq_true, bne_iff_ne, beq_iff_eq] at hc
    exact hkeyfree r hr hc.1 hc.2
  refine ⟨taskOfRowWith (updateRow task now old) task.inputParameters
      task.inputParametersKeyed task.outputParameters,
    ⟨db.rows.map (fun r => if r.rid == task.rid then updateRow task now r else r), db.lastId⟩,
    ?_, rfl, ?_, rfl, rfl, rfl, rfl, rfl, rfl, rfl, rfl, hclock, ?_, ?_⟩
  · simp only [updateTask, hfind]
    rw [if_neg (by omega : ¬ 100 < task.key.length)]
    rw [if_neg (by omega : ¬ 120 < task.name.length)]
    rw [hany]
    simp only [Bool.false_eq_true, if_false]
    rfl
  · show (updateRow task now old).rid = old.rid
    rfl
  · refine ⟨updateRow task now old, ?_, rfl, rfl, rfl, rfl, rfl, rfl, rfl⟩
    show updateRow task now old ∈ db.rows.map
      (fun r => if r.rid == task.rid then updateRow task now r else r)
    have : updateRow task now old =
        (fun r => if r.rid == task.rid then updateRow task now r else r) old := by
      simp [hrid]
    rw [this]
    exact List.mem_map_of_mem _ hmem
  · intro r hr hne
    have : r = (fun x => if x.rid == task.rid then updateRow task now x else x) r := by
      simp [hne]
    rw [this]
    exact List.mem_map_of_mem _ hr

theorem C9_witness :
    ∃ t db2, updateTask wDB 77 wTaskUpd = (Except.ok t, db2) ∧
      t.id = wRow2.id ∧ t.rid = wRow2.rid ∧ t.createdAt = wRow2.createdAt ∧
      t.key = wTaskUpd.key ∧ t.name = wTaskUpd.name ∧ t.description = wTaskUpd.description ∧
      t.inputParameters = wTaskUpd.inputParameters ∧
      t.inputParametersKeyed = wTaskUpd.inputParametersKeyed ∧
      t.outputParameters = wTaskUpd.outputParameters ∧
      t.updatedAt = 77 ∧ t.createdAt ≤ t.updatedAt ∧
      (∃ row2 ∈ db2.rows, row2.id = wRow2.id ∧ row2.rid = wRow2.rid ∧
        row2.createdAt = wRow2.createdAt ∧ row2.key = wTaskUpd.key ∧
        row2.name = wTaskUpd.name ∧ row2.description = wTaskUpd.description ∧
        row2.updatedAt = 77) ∧
      (∀ r ∈ wDB.rows, r.rid ≠ wTaskUpd.rid → r ∈ db2.rows) :=
  C9_update_replaces_mutable_fields wDB 77 wTaskUpd wRow2 (by decide) (by decide)
    (by decide) (by decide) (by decide) (by decide) (by decide)

/-- Claim C10: `SearchPage` with a nonzero `afterSequentialId` matching no
stored row returns an empty page without failing, regardless of how many
rows match the query, because the cursor lookup yields no timestamp and
the strict bound excludes every row. -/
theorem C10_search_missing_cursor_empty (db : DB) (q : String) (lastID entries : Nat)
    (h0 : lastID ≠ 0) (habs : ∀ r ∈ db.rows, r.id ≠ lastID) :
    selectAllTasksBySearch db q lastID entries = Except.ok ([], []) := by
  have hfind : db.rows.find? (fun c => c.id == lastID) = none := by
    rw [List.find?_eq_none]
    intro r hr
    simpa using habs r hr
  have hfilter :
      db.rows.filter (fun r => rowMatches q r && searchCursorOk db lastID r) = [] := by
    rw [List.filter_eq_nil_iff]
    intro r _
    simp [searchCursorOk, hfind, h0]
  rw [selectAllTasksBySearch, hfilter]
  simp only [List.insertionSort, List.take_nil]
  rfl

theorem C10_witness :
    selectAllTasksBySearch wDB "x" 9 5 = Except.ok ([], []) :=
  C10_search_missing_cursor_empty wDB "x" 9 5 (by decide) (by decide)

end QueuerManager
